import Mathlib

/-!
Verification of the fumadocs-editor core against its specification.

The development shallowly embeds the parts of the repository that carry the
state-machine and validation logic:

- `src/server.ts`: `validatePath` (PathGuard), `validateMdxContent`
  (ContentValidator), `handleSaveRequest` and `readFileContent`
  (PersistenceGateway).  The ambient file system is passed explicitly as a
  `Storage` value, the external remark/remark-mdx parser and the write
  syscall outcome are oracles, so every function is a pure Lean function.
- the MDXEditor adapter (`PreviewPanel`, `useDebounce`): the
  cancelled-flag compile pipeline is embedded as a step relation on an
  explicit panel state driven by effect-start and promise-resolution events.
- `src/components/EditModal.tsx` together with the adapter component: an
  event-driven model of the modal state machine, including React
  mount/unmount of the editor child.
-/

namespace Fumadocs

/-- ValidationError from types.ts: optional line and column plus a message. -/
structure ValidationError where
  line : Option Nat
  column : Option Nat
  message : String
deriving Repr, DecidableEq

/-- ValidationResult from types.ts: a valid flag plus an optional error list
(the field is optional in TypeScript, hence `Option (List _)` here). -/
structure ValidationResult where
  valid : Bool
  errors : Option (List ValidationError)
deriving Repr, DecidableEq

/-- The sequence of error entries carried by a ValidationResult; an absent
field carries no entries. -/
def ValidationResult.errorList (r : ValidationResult) : List ValidationError :=
  r.errors.getD []

/-- JS String.prototype.startsWith, embedded over the character sequence so
that it evaluates inside the kernel. -/
def strStartsWith (s pat : String) : Bool :=
  pat.data.isPrefixOf s.data

/-- JS String.prototype.endsWith, embedded over the character sequence. -/
def strEndsWith (s pat : String) : Bool :=
  pat.data.isSuffixOf s.data

/-- JS String.prototype.toLowerCase, embedded character by character. -/
def strToLower (s : String) : String :=
  String.mk (s.data.map Char.toLower)

/-- The first n characters of a string (the part of the new content a failed
in-place write leaves behind). -/
def strTake (s : String) (n : Nat) : String :=
  String.mk (s.data.take n)

/-- node:path isAbsolute with POSIX semantics: the path starts with a slash. -/
def isAbsolute (p : String) : Bool :=
  strStartsWith p "/"

/-- The result type of validatePath in server.ts. -/
structure PathCheck where
  valid : Bool
  error : Option String
deriving Repr, DecidableEq

/-- Default allow-list of the allowedExtensions parameter of validatePath. -/
def defaultAllowedExtensions : List String :=
  [".mdx", ".md"]

/-- The UnsupportedExtension message built by validatePath
(backtick-template join of the allow-list in the source). -/
def unsupportedExtensionError (allowedExtensions : List String) : String :=
  "File must have extension: " ++ String.intercalate ", " allowedExtensions

/-- validatePath from server.ts.  `fs` models node existsSync: the set of
paths at which a file currently exists.  The three checks run in source
order: absoluteness, extension (the path is lowercased, each allow-list
entry is used as given), existence. -/
def validatePath (fs : String → Bool) (filePath : String)
    (allowedExtensions : List String) : PathCheck :=
  if !(isAbsolute filePath) then
    { valid := false, error := some "Path must be absolute" }
  else if !(allowedExtensions.any fun ext => strEndsWith (strToLower filePath) ext) then
    { valid := false, error := some (unsupportedExtensionError allowedExtensions) }
  else if !(fs filePath) then
    { valid := false, error := some "File does not exist" }
  else
    { valid := true, error := none }

/-- Outcome of the external parse performed by validateMdxContent
(`remark().use(remarkMdx).process(content)` and the two dynamic imports):
either the content is processed, or an error object is thrown whose line,
column and message fields may each be absent. -/
structure ParseError where
  line : Option Nat
  column : Option Nat
  message : Option String
deriving Repr, DecidableEq

/-- validateMdxContent from server.ts, with the external parser passed as the
oracle `parse`.  The try/catch of the source makes the function total: every
parse outcome is turned into a ValidationResult, a thrown error into a single
error entry whose message defaults to "Invalid MDX syntax". -/
def validateMdxContent (parse : String → Except ParseError Unit)
    (content : String) : ValidationResult :=
  match parse content with
  | Except.ok _ => { valid := true, errors := none }
  | Except.error err =>
      { valid := false
        errors := some [{ line := err.line, column := err.column,
                          message := err.message.getD "Invalid MDX syntax" }] }

/-- The file system contents: the document stored at each path, `none` where
no file exists. -/
def Storage : Type :=
  String → Option String

/-- Outcome of the writeFileSync syscall.  node writeFileSync opens the file
for truncating write and writes the bytes in place (no temporary file, no
rename), so a failure partway through leaves the first `bytesWritten`
characters of the new content at the path; a failure to open at all leaves
the prior content untouched. -/
inductive WriteOutcome
  | success
  | failure (bytesWritten : Nat) (message : String)
  | openFailure (message : String)
deriving Repr, DecidableEq

/-- The error message the catch block of handleSaveRequest builds from a
throwing writeFileSync, if any. -/
def writeErrorMessage : WriteOutcome → Option String
  | WriteOutcome.success => none
  | WriteOutcome.failure _ msg => some ("Failed to write file: " ++ msg)
  | WriteOutcome.openFailure msg => some ("Failed to write file: " ++ msg)

/-- Effect of writeFileSync on storage, by outcome (see `WriteOutcome`). -/
def writeFileSync (st : Storage) (p content : String) :
    WriteOutcome → Storage
  | WriteOutcome.success => fun q => if q = p then some content else st q
  | WriteOutcome.failure k _ => fun q => if q = p then some (strTake content k) else st q
  | WriteOutcome.openFailure _ => st

/-- SaveRequest from server.ts. -/
structure SaveRequest where
  path : String
  content : String
deriving Repr, DecidableEq

/-- SaveResponse from server.ts. -/
structure SaveResponse where
  success : Bool
  error : Option String
  validation : Option ValidationResult
deriving Repr, DecidableEq

/-- handleSaveRequest from server.ts: validate the path (against the current
storage as the existsSync oracle), then validate the content, then write.
Returns the response and the storage after the call. -/
def handleSaveRequest (parse : String → Except ParseError Unit)
    (st : Storage) (o : WriteOutcome) (request : SaveRequest) :
    SaveResponse × Storage :=
  if !(validatePath (fun p => (st p).isSome) request.path
        defaultAllowedExtensions).valid then
    ({ success := false
       error := (validatePath (fun p => (st p).isSome) request.path
         defaultAllowedExtensions).error
       validation := none }, st)
  else if !(validateMdxContent parse request.content).valid then
    ({ success := false
       error := some "Invalid MDX content"
       validation := some (validateMdxContent parse request.content) }, st)
  else
    match o with
    | WriteOutcome.success =>
        ({ success := true, error := none, validation := none },
         writeFileSync st request.path request.content WriteOutcome.success)
    | WriteOutcome.failure k msg =>
        ({ success := false
           error := some ("Failed to write file: " ++ msg)
           validation := none },
         writeFileSync st request.path request.content (WriteOutcome.failure k msg))
    | WriteOutcome.openFailure msg =>
        ({ success := false
           error := some ("Failed to write file: " ++ msg)
           validation := none },
         writeFileSync st request.path request.content (WriteOutcome.openFailure msg))

/-- Result type of readFileContent in server.ts. -/
structure ReadResponse where
  content : Option String
  error : Option String
deriving Repr, DecidableEq

/-- readFileContent from server.ts: validate the path, then read.  The
readFileSync throw for a missing file is the only read failure modeled; it is
unreachable after the existence check of validatePath against the same
storage. -/
def readFileContent (st : Storage) (filePath : String) : ReadResponse :=
  if !(validatePath (fun p => (st p).isSome) filePath
        defaultAllowedExtensions).valid then
    { content := none
      error := (validatePath (fun p => (st p).isSome) filePath
        defaultAllowedExtensions).error }
  else
    match st filePath with
    | some c => { content := some c, error := none }
    | none => { content := none, error := some "Failed to read file: ENOENT" }

/-- Status field of the preview state of PreviewPanel in the MDXEditor
adapter. -/
inductive PreviewStatus
  | loading
  | ready
  | error
deriving Repr, DecidableEq

/-- The preview state set through setPreview in PreviewPanel: status plus the
optional rendered output, frontmatter and error message.  The rendered React
tree and the frontmatter record are abstracted as strings. -/
structure PreviewData where
  status : PreviewStatus
  content : Option String
  frontmatter : Option String
  error : Option String
deriving Repr, DecidableEq

/-- The fixed degradation message of PreviewPanel when @fumadocs/mdx-remote
cannot be imported. -/
def previewUnavailableMessage : String :=
  "Preview requires @fumadocs/mdx-remote. Install it with: pnpm add @fumadocs/mdx-remote"

/-- State of the PreviewPanel compile pipeline.  flags holds the cancelled
flag of every effect run so far, in start order (false = not cancelled);
compilerCached is the module-level mdxCompiler cache, which loadMDXCompiler
fills only on success; loadAttempts counts the dynamic-import attempts of
@fumadocs/mdx-remote. -/
structure PanelState where
  flags : List Bool
  preview : PreviewData
  compilerCached : Bool
  loadAttempts : Nat
deriving Repr, DecidableEq

/-- Events of the compile pipeline.  startCompile g is the g-th run of the
compile effect (triggered by a change of the debounced content): React first
runs the cleanup of the previous run — setting its cancelled flag — then the
effect body, which resolves loadMDXCompiler and either degrades (import
failed) or posts the loading state and starts compiler.compile.  resolveOk
and resolveErr are the completion of run g's compiler.compile promise, which
posts its result only if run g's cancelled flag is still unset. -/
inductive PanelEvent
  | startCompile (available : Bool)
  | resolveOk (g : Nat) (rendered : String) (fm : String)
  | resolveErr (g : Nat) (msg : String)
deriving Repr, DecidableEq

/-- The effect cleanup of PreviewPanel: set the cancelled flag of the most
recent effect run. -/
def markLastCancelled : List Bool → List Bool
  | [] => []
  | [_] => [true]
  | b :: c :: rest => b :: markLastCancelled (c :: rest)

/-- One event of the PreviewPanel pipeline (see PanelEvent).  The segments of
the async compile body that run before compiler.compile is started (the
loadMDXCompiler resolution and the loading setPreview) are folded into the
start event: promise subscription order makes them precede every later
effect run's resolutions. -/
def stepPanel (s : PanelState) : PanelEvent → PanelState
  | PanelEvent.startCompile available =>
      if s.compilerCached then
        { flags := markLastCancelled s.flags ++ [false]
          preview := { s.preview with status := PreviewStatus.loading }
          compilerCached := true
          loadAttempts := s.loadAttempts }
      else if available then
        { flags := markLastCancelled s.flags ++ [false]
          preview := { s.preview with status := PreviewStatus.loading }
          compilerCached := true
          loadAttempts := s.loadAttempts + 1 }
      else
        { flags := markLastCancelled s.flags ++ [false]
          preview := { status := PreviewStatus.error, content := none,
                       frontmatter := none,
                       error := some previewUnavailableMessage }
          compilerCached := false
          loadAttempts := s.loadAttempts + 1 }
  | PanelEvent.resolveOk g rendered fm =>
      if s.flags.get? g = some false then
        { s with preview := { status := PreviewStatus.ready,
                              content := some rendered,
                              frontmatter := some fm, error := none } }
      else s
  | PanelEvent.resolveErr g msg =>
      if s.flags.get? g = some false then
        { s with preview := { status := PreviewStatus.error, content := none,
                              frontmatter := none, error := some msg } }
      else s

/-- Run a sequence of pipeline events. -/
def runPanel (s : PanelState) : List PanelEvent → PanelState
  | [] => s
  | e :: rest => runPanel (stepPanel s e) rest

/-- PreviewPanel at mount: no effect run yet, initial preview state is
loading, no compiler cached, no import attempted. -/
def panelInit : PanelState :=
  { flags := []
    preview := { status := PreviewStatus.loading, content := none,
                 frontmatter := none, error := none }
    compilerCached := false
    loadAttempts := 0 }

/-- useDebounce from the MDXEditor adapter, as the fire trace of its timer:
given the timed submissions (time, value) in strictly increasing time order,
each submission cancels the pending timer of the previous one if it arrives
before that timer fires, and schedules its own timer delay later.  The
result lists the (time, value) updates of the debounced value; each update
that changes the value triggers exactly one compile in PreviewPanel. -/
def debounceFires (delay : Nat) : List (Nat × String) → List (Nat × String)
  | [] => []
  | (t, v) :: rest =>
    match rest with
    | [] => [(t + delay, v)]
    | (t2, _) :: _ =>
      if t2 < t + delay then debounceFires delay rest
      else (t + delay, v) :: debounceFires delay rest

/-- The submissions form one burst: each arrives strictly before the pending
timer of the previous one fires. -/
def burstWithin (delay : Nat) : List (Nat × String) → Bool
  | (t1, _) :: (t2, v2) :: rest =>
      decide (t2 < t1 + delay) && burstWithin delay ((t2, v2) :: rest)
  | _ => true

/-- Status field of ModalState in EditModal.tsx. -/
inductive ModalStatus
  | loading
  | ready
  | saving
  | error
deriving Repr, DecidableEq

/-- ModalState from EditModal.tsx. -/
structure ModalState where
  status : ModalStatus
  content : String
  errorMsg : Option String
  validation : Option ValidationResult
deriving Repr, DecidableEq

/-- The modal together with its editor child (the adapter component).  The
editor is rendered exactly while the modal status is ready or saving; while
mounted it alone owns the markdown being edited (editorRef.getMarkdown()),
seeded from initialContent = state.content at mount time.  lastSaveRequest
records the content field of the most recent save POST body; closed records
that onClose ran. -/
structure EditSystem where
  modal : ModalState
  editor : Option String
  lastSaveRequest : Option String
  closed : Bool
deriving Repr, DecidableEq

/-- The render condition of the editor child in EditModal.tsx. -/
def editorMounted : ModalStatus → Bool
  | ModalStatus.ready => true
  | ModalStatus.saving => true
  | _ => false

/-- React reconciliation after a modal state change: an editor that stays in
the tree keeps its own markdown, a newly mounted editor is seeded with
initialContent = state.content, and leaving the tree discards the editor
markdown. -/
def reconcile (m : ModalState) (editor : Option String) : Option String :=
  if editorMounted m.status then
    match editor with
    | some e => some e
    | none => some m.content
  else none

/-- Events of the EditModal lifecycle: the load fetch settling, a user edit
inside the editor (handleChange), the save button (handleSave with
getMarkdown()), the save fetch settling, and the Continue Editing button of
the error screen. -/
inductive EditEvent
  | loadSuccess (c : String)
  | loadFailure (msg : String)
  | edit (c : String)
  | saveRequest
  | saveFailure (msg : String) (v : Option ValidationResult)
  | saveSuccess
  | continueEditing
deriving Repr, DecidableEq

/-- One EditModal event, straight from the setState calls of EditModal.tsx,
followed by reconciliation of the editor child.  loadSuccess and loadFailure
replace the whole state; saveRequest and saveFailure spread the previous
state ({...prev}), so content keeps its loaded value; saveSuccess calls
onClose; Continue Editing only flips status back to ready. -/
def stepEdit (s : EditSystem) : EditEvent → EditSystem
  | EditEvent.loadSuccess c =>
      let m : ModalState :=
        { status := ModalStatus.ready, content := c, errorMsg := none,
          validation := none }
      { modal := m, editor := reconcile m s.editor,
        lastSaveRequest := s.lastSaveRequest, closed := s.closed }
  | EditEvent.loadFailure msg =>
      let m : ModalState :=
        { status := ModalStatus.error, content := "", errorMsg := some msg,
          validation := none }
      { modal := m, editor := reconcile m s.editor,
        lastSaveRequest := s.lastSaveRequest, closed := s.closed }
  | EditEvent.edit c =>
      match s.editor with
      | some _ => { s with editor := some c }
      | none => s
  | EditEvent.saveRequest =>
      match s.editor with
      | some e =>
          let m : ModalState :=
            { status := ModalStatus.saving, content := s.modal.content,
              errorMsg := s.modal.errorMsg, validation := s.modal.validation }
          { modal := m, editor := reconcile m (some e),
            lastSaveRequest := some e, closed := s.closed }
      | none => s
  | EditEvent.saveFailure msg v =>
      let m : ModalState :=
        { status := ModalStatus.error, content := s.modal.content,
          errorMsg := some msg, validation := v }
      { modal := m, editor := reconcile m s.editor,
        lastSaveRequest := s.lastSaveRequest, closed := s.closed }
  | EditEvent.saveSuccess =>
      { s with closed := true }
  | EditEvent.continueEditing =>
      let m : ModalState :=
        { status := ModalStatus.ready, content := s.modal.content,
          errorMsg := s.modal.errorMsg, validation := s.modal.validation }
      { modal := m, editor := reconcile m s.editor,
        lastSaveRequest := s.lastSaveRequest, closed := s.closed }

/-- Run a sequence of EditModal events. -/
def runEdit (s : EditSystem) : List EditEvent → EditSystem
  | [] => s
  | e :: rest => runEdit (stepEdit s e) rest

/-- EditModal at mount: loading, empty content, no editor mounted. -/
def editInit : EditSystem :=
  { modal := { status := ModalStatus.loading, content := "", errorMsg := none,
               validation := none }
    editor := none, lastSaveRequest := none, closed := false }

/-- The comparison described by the specification for the extension check:
case-insensitive with respect to both the path and the allow-list entry. -/
def extMatchesCI (filePath ext : String) : Bool :=
  strEndsWith (strToLower filePath) (strToLower ext)

/-- Inversion of validatePath: the check succeeds exactly when the path is
absolute, its lowercased form ends with some allow-list entry, and a file
exists at the path. -/
theorem validatePath_valid_iff (fs : String → Bool) (p : String)
    (allowed : List String) :
    (validatePath fs p allowed).valid = true ↔
      isAbsolute p = true ∧
      (allowed.any fun ext => strEndsWith (strToLower p) ext) = true ∧
      fs p = true := by
  unfold validatePath
  by_cases h1 : isAbsolute p = true
  · by_cases h2 : (allowed.any fun ext => strEndsWith (strToLower p) ext) = true
    · by_cases h3 : fs p = true
      · simp [h1, h2, h3]
      · simp [h1, h2, h3]
    · simp [h1, h2]
  · simp [h1]

/-- Lowercase-invariant allow-list entries make the raw endsWith test of the
source agree with the two-sided case-insensitive comparison. -/
theorem any_ext_toLower (p : String) (allowed : List String)
    (hlow : ∀ e ∈ allowed, strToLower e = e) :
    (allowed.any fun e => strEndsWith (strToLower p) e) =
      (allowed.any fun e => extMatchesCI p e) := by
  induction allowed with
  | nil => rfl
  | cons e rest ih =>
      have he : strToLower e = e := hlow e (List.mem_cons_self e rest)
      have ih2 := ih fun x hx => hlow x (List.mem_cons_of_mem e hx)
      simp only [List.any_cons, ih2, extMatchesCI, he]

/-- Claim C10: with an empty allow-list, validatePath rejects every absolute
path with the unsupported-extension error, whatever the file system contains
(the existence check is never reached: the conclusion does not depend on
`fs`). -/
theorem validatePath_empty_allowlist (fs : String → Bool) (p : String)
    (habs : isAbsolute p = true) :
    validatePath fs p [] =
      { valid := false, error := some (unsupportedExtensionError []) } := by
  simp [validatePath, habs]

/-- Witness for C10 at a concrete absolute path and a file system with no
files at all. -/
theorem validatePath_empty_allowlist_witness :
    isAbsolute "/doc.md" = true ∧
    validatePath (fun _ => false) "/doc.md" [] =
      { valid := false, error := some (unsupportedExtensionError []) } :=
  ⟨by decide, validatePath_empty_allowlist (fun _ => false) "/doc.md" (by decide)⟩

/-- Claim C7 counterexample: the extension check is not case-insensitive with
respect to the allow-list side.  The existing absolute path "/doc.md" with
allow-list [".MD"] matches case-insensitively, yet validatePath rejects it
with the unsupported-extension failure, refuting the claimed equivalence at
this input. -/
theorem validatePath_ci_claim_false :
    ¬ (validatePath (fun _ => true) "/doc.md" [".MD"] =
         { valid := false, error := some (unsupportedExtensionError [".MD"]) } ↔
       ([".MD"].any fun ext => extMatchesCI "/doc.md" ext) = false) := by
  decide

/-- Claim C7 amended: validatePath lowercases only the path, so the check is
case-insensitive in the path but case-sensitive in the allow-list entries.
For allow-lists whose entries are already lowercase (as the default list is),
an absolute existing path is accepted exactly when some entry matches
case-insensitively, and otherwise rejected with the unsupported-extension
failure. -/
theorem validatePath_ci_path_side (fs : String → Bool) (p : String)
    (allowed : List String) (habs : isAbsolute p = true) (hex : fs p = true)
    (hlow : ∀ e ∈ allowed, strToLower e = e) :
    ((allowed.any fun e => extMatchesCI p e) = true →
       validatePath fs p allowed = { valid := true, error := none }) ∧
    ((allowed.any fun e => extMatchesCI p e) = false →
       validatePath fs p allowed =
         { valid := false, error := some (unsupportedExtensionError allowed) }) := by
  have hany := any_ext_toLower p allowed hlow
  constructor
  · intro hm
    simp [validatePath, habs, hany, hm, hex]
  · intro hm
    simp [validatePath, habs, hany, hm]

/-- Witness for C7 amended: an uppercase-extension path accepted against the
lowercase allow-list, and a .txt path rejected against it. -/
theorem validatePath_ci_path_side_witness :
    validatePath (fun _ => true) "/Doc.MD" [".md"] =
      { valid := true, error := none } ∧
    validatePath (fun _ => true) "/doc.txt" [".md"] =
      { valid := false, error := some (unsupportedExtensionError [".md"]) } :=
  ⟨(validatePath_ci_path_side (fun _ => true) "/Doc.MD" [".md"] (by decide) rfl
      (by intro e he; rw [List.mem_singleton] at he; subst he; decide)).1 (by decide),
   (validatePath_ci_path_side (fun _ => true) "/doc.txt" [".md"] (by decide) rfl
      (by intro e he; rw [List.mem_singleton] at he; subst he; decide)).2 (by decide)⟩

/-- Claim C4: handleSaveRequest validates in order and writes only when both
validations pass.  A path failure is returned with the path error message
unchanged and storage untouched; a content failure is returned carrying the
ValidationResult with storage untouched; when both pass, the write is
attempted, and the response succeeds exactly when the write does. -/
theorem handleSaveRequest_validation_order
    (parse : String → Except ParseError Unit) (st : Storage)
    (o : WriteOutcome) (request : SaveRequest) :
    ((validatePath (fun p => (st p).isSome) request.path
          defaultAllowedExtensions).valid = false →
       handleSaveRequest parse st o request =
         ({ success := false
            error := (validatePath (fun p => (st p).isSome) request.path
              defaultAllowedExtensions).error
            validation := none }, st)) ∧
    ((validatePath (fun p => (st p).isSome) request.path
          defaultAllowedExtensions).valid = true →
       (validateMdxContent parse request.content).valid = false →
       handleSaveRequest parse st o request =
         ({ success := false
            error := some "Invalid MDX content"
            validation := some (validateMdxContent parse request.content) }, st)) ∧
    ((validatePath (fun p => (st p).isSome) request.path
          defaultAllowedExtensions).valid = true →
       (validateMdxContent parse request.content).valid = true →
       (handleSaveRequest parse st o request).2 =
         writeFileSync st request.path request.content o ∧
       (handleSaveRequest parse st o request).1.success =
         decide (o = WriteOutcome.success)) := by
  refine ⟨fun h1 => ?_, fun h1 h2 => ?_, fun h1 h2 => ?_⟩
  · simp [handleSaveRequest, h1]
  · simp [handleSaveRequest, h1, h2]
  · cases o <;> simp [handleSaveRequest, h1, h2]

/-- Witness for C4: the three branches at concrete inputs — a relative path,
a parse failure on an existing file, and a fully successful save. -/
theorem handleSaveRequest_validation_order_witness :
    (handleSaveRequest (fun _ => Except.ok ()) (fun _ => none)
        WriteOutcome.success { path := "doc.md", content := "x" } =
      ({ success := false, error := some "Path must be absolute",
         validation := none }, fun _ => none)) ∧
    (handleSaveRequest (fun _ => Except.error ⟨some 2, none, some "bad"⟩)
        (fun q => if q = "/doc.md" then some "old" else none)
        WriteOutcome.success { path := "/doc.md", content := "x" } =
      ({ success := false, error := some "Invalid MDX content",
         validation := some ⟨false, some [⟨some 2, none, "bad"⟩]⟩ },
       fun q => if q = "/doc.md" then some "old" else none)) ∧
    ((handleSaveRequest (fun _ => Except.ok ())
        (fun q => if q = "/doc.md" then some "old" else none)
        WriteOutcome.success { path := "/doc.md", content := "new" }).2 =
      writeFileSync (fun q => if q = "/doc.md" then some "old" else none)
        "/doc.md" "new" WriteOutcome.success) :=
  ⟨(handleSaveRequest_validation_order (fun _ => Except.ok ()) (fun _ => none)
      WriteOutcome.success { path := "doc.md", content := "x" }).1 (by decide),
   (handleSaveRequest_validation_order (fun _ => Except.error ⟨some 2, none, some "bad"⟩)
      (fun q => if q = "/doc.md" then some "old" else none)
      WriteOutcome.success { path := "/doc.md", content := "x" }).2.1
      (by decide) (by decide),
   ((handleSaveRequest_validation_order (fun _ => Except.ok ())
      (fun q => if q = "/doc.md" then some "old" else none)
      WriteOutcome.success { path := "/doc.md", content := "new" }).2.2
      (by decide) (by decide)).1⟩

/-- Claim C3 counterexample: saving is not all-or-nothing.  With prior stored
content "old content" at "/doc.md", saving "ABCD" through a write that fails
after two characters leaves "AB" at the path: neither the prior content nor
the full new content. -/
theorem save_partial_write_possible :
    ((handleSaveRequest (fun _ => Except.ok ())
        (fun q => if q = "/doc.md" then some "old content" else none)
        (WriteOutcome.failure 2 "disk full")
        { path := "/doc.md", content := "ABCD" }).2 "/doc.md" = some "AB") ∧
    some "AB" ≠ some "old content" ∧ some "AB" ≠ some "ABCD" ∧
    (handleSaveRequest (fun _ => Except.ok ())
        (fun q => if q = "/doc.md" then some "old content" else none)
        (WriteOutcome.failure 2 "disk full")
        { path := "/doc.md", content := "ABCD" }).1.success = false := by
  refine ⟨by decide, by decide, by decide, by decide⟩

/-- Claim C3 amended: once both validations pass, a successful write stores
the full new content, a failure to open the file leaves storage untouched,
but a write failing after k characters leaves the first k characters of the
new content at the path — writeFileSync writes in place with no atomic
replace, so partial content is a possible outcome. -/
theorem save_write_outcomes (parse : String → Except ParseError Unit)
    (st : Storage) (request : SaveRequest)
    (hpath : (validatePath (fun p => (st p).isSome) request.path
       defaultAllowedExtensions).valid = true)
    (hcontent : (validateMdxContent parse request.content).valid = true) :
    ((handleSaveRequest parse st WriteOutcome.success request).1.success = true ∧
     (handleSaveRequest parse st WriteOutcome.success request).2 request.path =
       some request.content) ∧
    (∀ k msg,
      (handleSaveRequest parse st (WriteOutcome.failure k msg) request).1.success
          = false ∧
      (handleSaveRequest parse st (WriteOutcome.failure k msg) request).2
          request.path = some (strTake request.content k)) ∧
    (∀ msg,
      (handleSaveRequest parse st (WriteOutcome.openFailure msg) request).1.success
          = false ∧
      (handleSaveRequest parse st (WriteOutcome.openFailure msg) request).2 = st) := by
  refine ⟨?_, fun k msg => ?_, fun msg => ?_⟩ <;>
    simp [handleSaveRequest, hpath, hcontent, writeFileSync]

/-- Witness for C3 amended at the concrete inputs of the counterexample. -/
theorem save_write_outcomes_witness :
    ((handleSaveRequest (fun _ => Except.ok ())
        (fun q => if q = "/doc.md" then some "old content" else none)
        (WriteOutcome.failure 2 "disk full")
        { path := "/doc.md", content := "ABCD" }).1.success = false ∧
     (handleSaveRequest (fun _ => Except.ok ())
        (fun q => if q = "/doc.md" then some "old content" else none)
        (WriteOutcome.failure 2 "disk full")
        { path := "/doc.md", content := "ABCD" }).2 "/doc.md" =
       some (strTake "ABCD" 2)) :=
  (save_write_outcomes (fun _ => Except.ok ())
    (fun q => if q = "/doc.md" then some "old content" else none)
    { path := "/doc.md", content := "ABCD" } (by decide) (by decide)).2.1 2 "disk full"

/-- Claim C8: validateMdxContent is total over every parser outcome — the
try/catch of the source captures any thrown parse failure into the returned
ValidationResult, so nothing escapes to the caller.  On success the result is
valid with no error entries; on failure it is invalid with exactly one entry
carrying the line and column the parser supplied and a human-readable message
(defaulting to "Invalid MDX syntax" when the thrown error has none). -/
theorem validateMdxContent_total (parse : String → Except ParseError Unit)
    (content : String) :
    ((parse content).isOk = true →
       (validateMdxContent parse content).valid = true ∧
       (validateMdxContent parse content).errorList = []) ∧
    (∀ e, parse content = Except.error e →
       (validateMdxContent parse content).valid = false ∧
       (validateMdxContent parse content).errorList =
         [{ line := e.line, column := e.column,
            message := e.message.getD "Invalid MDX syntax" }]) := by
  constructor
  · intro h
    cases hp : parse content with
    | ok u => simp [validateMdxContent, hp, ValidationResult.errorList]
    | error e => rw [hp] at h; simp [Except.isOk, Except.toBool] at h
  · intro e he
    simp [validateMdxContent, he, ValidationResult.errorList]

/-- Witness for C8: a succeeding parse and a failing parse with positions. -/
theorem validateMdxContent_total_witness :
    ((validateMdxContent (fun _ => Except.ok ()) "# Hello").valid = true ∧
     (validateMdxContent (fun _ => Except.ok ()) "# Hello").errorList = []) ∧
    ((validateMdxContent
        (fun _ => Except.error { line := some 3, column := some 1, message := none })
        "<Broken").valid = false ∧
     (validateMdxContent
        (fun _ => Except.error { line := some 3, column := some 1, message := none })
        "<Broken").errorList =
       [{ line := some 3, column := some 1, message := "Invalid MDX syntax" }]) :=
  ⟨(validateMdxContent_total (fun _ => Except.ok ()) "# Hello").1 (by decide),
   (validateMdxContent_total
      (fun _ => Except.error { line := some 3, column := some 1, message := none })
      "<Broken").2 { line := some 3, column := some 1, message := none } rfl⟩

/-- Claim C9: round-trip.  When the path validates, the content validates and
the write succeeds, a save followed by a load of the same path returns
exactly the saved content. -/
theorem save_load_roundtrip (parse : String → Except ParseError Unit)
    (st : Storage) (p content : String)
    (hpath : (validatePath (fun q => (st q).isSome) p
       defaultAllowedExtensions).valid = true)
    (hcontent : (validateMdxContent parse content).valid = true) :
    (handleSaveRequest parse st WriteOutcome.success
        { path := p, content := content }).1.success = true ∧
    readFileContent
        (handleSaveRequest parse st WriteOutcome.success
          { path := p, content := content }).2 p =
      { content := some content, error := none } := by
  have hinv := (validatePath_valid_iff (fun q => (st q).isSome) p
    defaultAllowedExtensions).mp hpath
  have hsave :
      (handleSaveRequest parse st WriteOutcome.success
        { path := p, content := content }).2 =
        fun q => if q = p then some content else st q := by
    simp [handleSaveRequest, hpath, hcontent, writeFileSync]
  refine ⟨by simp [handleSaveRequest, hpath, hcontent], ?_⟩
  rw [hsave]
  have hpath2 : (validatePath
      (fun q => ((if q = p then some content else st q) : Option String).isSome) p
      defaultAllowedExtensions).valid = true := by
    rw [validatePath_valid_iff]
    exact ⟨hinv.1, hinv.2.1, by simp⟩
  simp [readFileContent, hpath2]

/-- Witness for C9: saving "# Hello" to an existing "/doc.md" and loading it
back. -/
theorem save_load_roundtrip_witness :
    (handleSaveRequest (fun _ => Except.ok ())
        (fun q => if q = "/doc.md" then some "old" else none) WriteOutcome.success
        { path := "/doc.md", content := "# Hello" }).1.success = true ∧
    readFileContent
        (handleSaveRequest (fun _ => Except.ok ())
          (fun q => if q = "/doc.md" then some "old" else none) WriteOutcome.success
          { path := "/doc.md", content := "# Hello" }).2 "/doc.md" =
      { content := some "# Hello", error := none } :=
  save_load_roundtrip (fun _ => Except.ok ())
    (fun q => if q = "/doc.md" then some "old" else none) "/doc.md" "# Hello"
    (by decide) (by decide)

/-- markLastCancelled preserves the length of the flag list. -/
theorem markLastCancelled_length (l : List Bool) :
    (markLastCancelled l).length = l.length := by
  induction l with
  | nil => rfl
  | cons b rest ih =>
      cases rest with
      | nil => rfl
      | cons c rest2 => simpa [markLastCancelled] using ih

/-- After the cleanup runs, every flag in the list is set: the flags other
than the last were already set, and cleanup sets the last one. -/
theorem markLastCancelled_all (l : List Bool)
    (h : ∀ k, k + 1 < l.length → l.get? k = some true) :
    ∀ k, k < l.length → (markLastCancelled l).get? k = some true := by
  induction l with
  | nil => intro k hk; simp at hk
  | cons b rest ih =>
      intro k hk
      cases rest with
      | nil =>
          cases k with
          | zero => rfl
          | succ k2 => simp at hk
      | cons c rest2 =>
          cases k with
          | zero =>
              have hb := h 0 (by simp)
              simp only [List.get?_cons_zero, Option.some.injEq] at hb
              simp [markLastCancelled, hb]
          | succ k2 =>
              have := ih (fun k hk2 => h (k + 1) (by simpa using hk2)) k2
                (by simpa using hk)
              simpa [markLastCancelled] using this

/-- Invariant of the flag list of a reachable panel state: every flag but
the last is set (those effect runs were cleaned up), and the last — the run
in progress — is unset. -/
def PanelInv (s : PanelState) : Prop :=
  (∀ k, k + 1 < s.flags.length → s.flags.get? k = some true) ∧
  (s.flags = [] ∨ s.flags.get? (s.flags.length - 1) = some false)

/-- The flag list produced by an effect start keeps the invariant. -/
theorem flags_inv_step (l : List Bool)
    (h : ∀ k, k + 1 < l.length → l.get? k = some true) :
    (∀ k, k + 1 < (markLastCancelled l ++ [false]).length →
        (markLastCancelled l ++ [false]).get? k = some true) ∧
    (markLastCancelled l ++ [false]).get?
        ((markLastCancelled l ++ [false]).length - 1) = some false := by
  constructor
  · intro k hk
    have hlen : k < (markLastCancelled l).length := by
      simp [markLastCancelled_length] at hk ⊢; omega
    rw [List.get?_append hlen]
    exact markLastCancelled_all l h k (by simpa [markLastCancelled_length] using hlen)
  · have hlen : (markLastCancelled l ++ [false]).length =
        (markLastCancelled l).length + 1 := by simp
    rw [hlen]
    simp [List.get?_append_right (Nat.le_refl _)]

/-- A resolution event never changes the flag list. -/
theorem stepPanel_resolveOk_flags (s : PanelState) (g : Nat) (r f : String) :
    (stepPanel s (PanelEvent.resolveOk g r f)).flags = s.flags := by
  simp only [stepPanel]
  split <;> rfl

/-- A failing resolution event never changes the flag list either. -/
theorem stepPanel_resolveErr_flags (s : PanelState) (g : Nat) (m : String) :
    (stepPanel s (PanelEvent.resolveErr g m)).flags = s.flags := by
  simp only [stepPanel]
  split <;> rfl

/-- An effect start replaces the flag list by cleanup plus a fresh flag,
whatever the compiler availability. -/
theorem stepPanel_start_flags (s : PanelState) (available : Bool) :
    (stepPanel s (PanelEvent.startCompile available)).flags =
      markLastCancelled s.flags ++ [false] := by
  simp only [stepPanel]
  split
  · rfl
  · split <;> rfl

/-- A resolution whose generation flag is unset posts its result. -/
theorem stepPanel_resolve_applied (s : PanelState) (g : Nat) (r f : String)
    (h : s.flags.get? g = some false) :
    stepPanel s (PanelEvent.resolveOk g r f) =
      { s with preview := { status := PreviewStatus.ready, content := some r,
                            frontmatter := some f, error := none } } := by
  simp only [stepPanel]
  rw [if_pos h]

/-- A resolution whose generation flag is set is discarded entirely. -/
theorem stepPanel_resolve_skipped (s : PanelState) (g : Nat) (r f : String)
    (h : s.flags.get? g = some true) :
    stepPanel s (PanelEvent.resolveOk g r f) = s := by
  simp only [stepPanel]
  rw [if_neg]
  intro hc
  rw [h] at hc
  simp at hc

/-- Every panel event preserves the flag invariant. -/
theorem panelInv_step (s : PanelState) (e : PanelEvent) (h : PanelInv s) :
    PanelInv (stepPanel s e) := by
  cases e with
  | startCompile available =>
      have h2 := flags_inv_step s.flags h.1
      refine ⟨?_, Or.inr ?_⟩
      · rw [stepPanel_start_flags]; exact h2.1
      · rw [stepPanel_start_flags]; exact h2.2
  | resolveOk g rendered fm =>
      refine ⟨?_, ?_⟩
      · rw [stepPanel_resolveOk_flags]; exact h.1
      · rw [stepPanel_resolveOk_flags]; exact h.2
  | resolveErr g msg =>
      refine ⟨?_, ?_⟩
      · rw [stepPanel_resolveErr_flags]; exact h.1
      · rw [stepPanel_resolveErr_flags]; exact h.2

/-- Running any event sequence preserves the flag invariant. -/
theorem panelInv_run (tr : List PanelEvent) :
    ∀ s : PanelState, PanelInv s → PanelInv (runPanel s tr) := by
  induction tr with
  | nil => intro s h; exact h
  | cons e rest ih => intro s h; exact ih (stepPanel s e) (panelInv_step s e h)

/-- The initial panel state satisfies the flag invariant. -/
theorem panelInv_init : PanelInv panelInit :=
  ⟨fun k hk => by simp [panelInit] at hk, Or.inl rfl⟩

/-- Running an appended event sequence is running the two parts in turn. -/
theorem runPanel_append (l1 l2 : List PanelEvent) :
    ∀ s : PanelState, runPanel s (l1 ++ l2) = runPanel (runPanel s l1) l2 := by
  induction l1 with
  | nil => intro s; rfl
  | cons e rest ih => intro s; simpa [runPanel] using ih (stepPanel s e)

/-- Claim C2: last-writer-wins by submission order.  After any reachable
history in which the latest compile submitted has generation j (the flag
list has length j + 1), if the compile of generation j resolves and then an
earlier compile i < j resolves, the earlier result is discarded — its
cancelled flag was set when a later effect started — and the preview shows
generation j's output. -/
theorem preview_stale_result_discarded (pre : List PanelEvent) (i j : Nat)
    (ci fi cj fj : String) (hij : i < j)
    (hj : (runPanel panelInit pre).flags.length = j + 1) :
    (runPanel panelInit
        (pre ++ [PanelEvent.resolveOk j cj fj, PanelEvent.resolveOk i ci fi])).preview =
      { status := PreviewStatus.ready, content := some cj,
        frontmatter := some fj, error := none } := by
  have hinv := panelInv_run pre panelInit panelInv_init
  rw [runPanel_append]
  have hflagj : (runPanel panelInit pre).flags.get? j = some false := by
    rcases hinv.2 with h0 | hlast
    · rw [h0] at hj; simp at hj
    · rw [hj] at hlast; simpa using hlast
  have hflagi : (runPanel panelInit pre).flags.get? i = some true :=
    hinv.1 i (by omega)
  show (stepPanel (stepPanel (runPanel panelInit pre)
      (PanelEvent.resolveOk j cj fj)) (PanelEvent.resolveOk i ci fi)).preview = _
  rw [stepPanel_resolve_applied _ j cj fj hflagj]
  rw [stepPanel_resolve_skipped
    { runPanel panelInit pre with
      preview := { status := PreviewStatus.ready, content := some cj,
                   frontmatter := some fj, error := none } } i ci fi hflagi]

/-- Witness for C2: two compiles started, generation 1 resolves first, then
generation 0; the preview shows generation 1's output. -/
theorem preview_stale_result_discarded_witness :
    0 < 1 ∧
    (runPanel panelInit
        [PanelEvent.startCompile true, PanelEvent.startCompile true]).flags.length
      = 1 + 1 ∧
    (runPanel panelInit
        ([PanelEvent.startCompile true, PanelEvent.startCompile true] ++
         [PanelEvent.resolveOk 1 ("two") ("fm2"),
          PanelEvent.resolveOk 0 ("one") ("fm1")])).preview =
      { status := PreviewStatus.ready, content := some ("two"),
        frontmatter := some ("fm2"), error := none } :=
  ⟨by decide, by decide,
   preview_stale_result_discarded
     [PanelEvent.startCompile true, PanelEvent.startCompile true]
     0 1 ("one") ("fm1") ("two") ("fm2") (by decide) (by decide)⟩

/-- Claim C5 counterexample: the degradation is not attempted once.  Two
content submissions while @fumadocs/mdx-remote stays unavailable make two
load attempts — loadMDXCompiler caches only success, so the second
submission re-attempts the load and posts the fixed error again, refuting
that no compile attempt after the first is made. -/
theorem preview_unavailable_reattempts :
    (runPanel panelInit
        [PanelEvent.startCompile false, PanelEvent.startCompile false]).loadAttempts
      = 2 ∧
    ¬ ((runPanel panelInit
        [PanelEvent.startCompile false, PanelEvent.startCompile false]).loadAttempts
      = 1) ∧
    (runPanel panelInit
        [PanelEvent.startCompile false, PanelEvent.startCompile false]).preview.error
      = some previewUnavailableMessage := by
  refine ⟨by decide, by decide, by decide⟩

/-- While the dependency stays unavailable, every submission adds one import
attempt, the failure is never cached, and (once at least one submission has
happened) the preview shows the fixed unavailable error. -/
theorem runPanel_unavailable (n : Nat) :
    ∀ s : PanelState, s.compilerCached = false →
    (runPanel s (List.replicate n (PanelEvent.startCompile false))).loadAttempts =
        s.loadAttempts + n ∧
    (runPanel s (List.replicate n (PanelEvent.startCompile false))).compilerCached
        = false ∧
    (n = 0 → runPanel s (List.replicate n (PanelEvent.startCompile false)) = s) ∧
    (0 < n → (runPanel s (List.replicate n (PanelEvent.startCompile false))).preview =
      { status := PreviewStatus.error, content := none, frontmatter := none,
        error := some previewUnavailableMessage }) := by
  induction n with
  | zero =>
      intro s hc
      exact ⟨rfl, hc, fun _ => rfl, fun h => absurd h (by simp)⟩
  | succ m ih =>
      intro s hc
      rw [List.replicate_succ]
      have hstep : stepPanel s (PanelEvent.startCompile false) =
          { flags := markLastCancelled s.flags ++ [false]
            preview := { status := PreviewStatus.error, content := none,
                         frontmatter := none,
                         error := some previewUnavailableMessage }
            compilerCached := false
            loadAttempts := s.loadAttempts + 1 } := by
        simp [stepPanel, hc]
      have ih2 := ih (stepPanel s (PanelEvent.startCompile false)) (by rw [hstep])
      have hA : (stepPanel s (PanelEvent.startCompile false)).loadAttempts
          = s.loadAttempts + 1 := by rw [hstep]
      refine ⟨?_, ?_, fun h => by simp at h, fun _ => ?_⟩
      · show (runPanel (stepPanel s (PanelEvent.startCompile false))
            (List.replicate m (PanelEvent.startCompile false))).loadAttempts = _
        rw [ih2.1, hA]
        omega
      · show (runPanel (stepPanel s (PanelEvent.startCompile false))
            (List.replicate m (PanelEvent.startCompile false))).compilerCached = _
        exact ih2.2.1
      · show (runPanel (stepPanel s (PanelEvent.startCompile false))
            (List.replicate m (PanelEvent.startCompile false))).preview = _
        cases Nat.eq_zero_or_pos m with
        | inl h0 =>
            subst h0
            rw [ih2.2.2.1 rfl, hstep]
        | inr hpos => exact ih2.2.2.2 hpos

/-- Claim C5 amended: while the compiler dependency remains unavailable, the
component does not stop after the first attempt — every submission
re-attempts the dynamic import (only success is cached) and posts the same
fixed unavailable error again. -/
theorem preview_unavailable_every_submission (n : Nat) (hn : 0 < n) :
    (runPanel panelInit
        (List.replicate n (PanelEvent.startCompile false))).loadAttempts = n ∧
    (runPanel panelInit
        (List.replicate n (PanelEvent.startCompile false))).preview =
      { status := PreviewStatus.error, content := none, frontmatter := none,
        error := some previewUnavailableMessage } := by
  have h := runPanel_unavailable n panelInit rfl
  exact ⟨by simpa [panelInit] using h.1, h.2.2.2 hn⟩

/-- Witness for C5 amended at three submissions. -/
theorem preview_unavailable_every_submission_witness :
    0 < 3 ∧
    (runPanel panelInit
        (List.replicate 3 (PanelEvent.startCompile false))).loadAttempts = 3 ∧
    (runPanel panelInit
        (List.replicate 3 (PanelEvent.startCompile false))).preview =
      { status := PreviewStatus.error, content := none, frontmatter := none,
        error := some previewUnavailableMessage } :=
  ⟨by decide, (preview_unavailable_every_submission 3 (by decide)).1,
   (preview_unavailable_every_submission 3 (by decide)).2⟩

/-- Claim C6: debounce collapsing.  For any burst of submissions each of
which arrives before the previous timer fires, every submission cancels and
replaces the pending timer and the debounced value updates exactly once, at
the last submission's time plus the window, carrying the last submission's
content — so exactly one compile is triggered, on that content. -/
theorem debounce_collapses_burst (delay : Nat) (subs : List (Nat × String))
    (p : Nat × String) (hburst : burstWithin delay subs = true)
    (hlast : subs.getLast? = some p) :
    debounceFires delay subs = [(p.1 + delay, p.2)] := by
  induction subs with
  | nil => simp at hlast
  | cons a rest ih =>
      cases rest with
      | nil =>
          obtain ⟨t, v⟩ := a
          simp only [List.getLast?_singleton, Option.some.injEq] at hlast
          subst hlast
          rfl
      | cons b rest2 =>
          obtain ⟨t, v⟩ := a
          obtain ⟨t2, v2⟩ := b
          simp only [burstWithin, Bool.and_eq_true, decide_eq_true_eq] at hburst
          rw [List.getLast?_cons_cons] at hlast
          have := ih hburst.2 hlast
          simpa [debounceFires, hburst.1] using this

/-- Witness for C6: edits at 0ms, 50ms, 100ms with a 300ms window collapse
to one debounced update at 400ms carrying the content of the last edit. -/
theorem debounce_collapses_burst_witness :
    burstWithin 300 [(0, "a"), (50, "b"), (100, "c")] = true ∧
    debounceFires 300 [(0, "a"), (50, "b"), (100, "c")] = [(400, "c")] :=
  ⟨by decide,
   debounce_collapses_burst 300 [(0, "a"), (50, "b"), (100, "c")] (100, "c")
     (by decide) (by decide)⟩

/-- Claim C1 counterexample: load succeeds with "A", the user edits to "B",
the save fails.  The status does become error and the failed request carried
"B", but the editor child is unmounted on error and, resuming via Continue
Editing, the content offered back for editing is the loaded "A" — the claim
that it is still "B" is false. -/
theorem editmodal_save_failure_loses_edit :
    (runEdit editInit
        [EditEvent.loadSuccess ("A"), EditEvent.edit ("B"), EditEvent.saveRequest,
         EditEvent.saveFailure ("disk full") none]).modal.status = ModalStatus.error ∧
    (runEdit editInit
        [EditEvent.loadSuccess ("A"), EditEvent.edit ("B"), EditEvent.saveRequest,
         EditEvent.saveFailure ("disk full") none]).lastSaveRequest = some ("B") ∧
    (runEdit editInit
        [EditEvent.loadSuccess ("A"), EditEvent.edit ("B"), EditEvent.saveRequest,
         EditEvent.saveFailure ("disk full") none,
         EditEvent.continueEditing]).editor = some ("A") ∧
    ¬ ((runEdit editInit
        [EditEvent.loadSuccess ("A"), EditEvent.edit ("B"), EditEvent.saveRequest,
         EditEvent.saveFailure ("disk full") none,
         EditEvent.continueEditing]).editor = some ("B")) := by
  refine ⟨rfl, rfl, rfl, by decide⟩

/-- Claim C1 amended: when a save fails after an edit, the modal status
becomes error and the failed request carried the edited content, but the
edit is not preserved: the modal state keeps only the originally loaded
content, the editor — which alone held the edit — is unmounted by the error
state, and Continue Editing remounts it seeded with the loaded content. -/
theorem editmodal_save_failure_reverts (a b msg : String) :
    (runEdit editInit
        [EditEvent.loadSuccess a, EditEvent.edit b, EditEvent.saveRequest,
         EditEvent.saveFailure msg none]).modal.status = ModalStatus.error ∧
    (runEdit editInit
        [EditEvent.loadSuccess a, EditEvent.edit b, EditEvent.saveRequest,
         EditEvent.saveFailure msg none]).lastSaveRequest = some b ∧
    (runEdit editInit
        [EditEvent.loadSuccess a, EditEvent.edit b, EditEvent.saveRequest,
         EditEvent.saveFailure msg none]).modal.content = a ∧
    (runEdit editInit
        [EditEvent.loadSuccess a, EditEvent.edit b, EditEvent.saveRequest,
         EditEvent.saveFailure msg none]).editor = none ∧
    (runEdit editInit
        [EditEvent.loadSuccess a, EditEvent.edit b, EditEvent.saveRequest,
         EditEvent.saveFailure msg none, EditEvent.continueEditing]).editor
      = some a := by
  exact ⟨rfl, rfl, rfl, rfl, rfl⟩

end Fumadocs
